import Mathlib

/-!
Shallow embedding of the vizbuilder repository:
  - src/vizbuilder/components/shapes.py  (Rect, Rects, hstack, vstack, grid)
  - src/vizbuilder/core/html_builder.py  (HTMLElement construction and serialization)

Python floats are modelled as rationals, Python strings as Lean strings,
Python None for an optional float field as Option, and Python exceptions
as Except values.
-/

namespace Viz

/-- Model of the value ultimately stored in the font_size field of Rect.
In Python the field is a string: either the string supplied by the caller
(constructor default ""), or, when that string is falsy (empty), the string
produced by the f-string in Rect.__post_init__, which renders a numeric value
followed by "px".  The derived case keeps the numeric value symbolically. -/
inductive FontSize where
  | given (s : String)
  | derived (q : ℚ)
  deriving DecidableEq

/-- Python truthiness of the stored font_size value: an explicitly given
string is truthy iff nonempty; a derived value renders as a nonempty string
(digits followed by px), hence is always truthy. -/
def FontSize.truthy : FontSize → Bool
  | .given s => !(s == "")
  | .derived _ => true

/-- The Rect dataclass from shapes.py, field for field.  Numeric fields are
rationals; stroke_width has Python default None, modelled as Option. -/
structure Rect where
  width : ℚ
  height : ℚ
  x : ℚ := 0
  y : ℚ := 0
  rx : ℚ := 0
  ry : ℚ := 0
  color : String := "#000000"
  roughness : ℚ := 0
  stroke_color : String := "black"
  stroke_dasharray : String := "none"
  stroke_width : Option ℚ := none
  text : String := ""
  font_size : FontSize := .given ""
  text_color : String := "black"
  text_orientation : String := "horizontal"
  deriving DecidableEq

/-- The divisor computed in Rect.__post_init__:
estimated_text_size = max(0.6*len(self.text), 1). -/
def estimatedTextSize (text : String) : ℚ :=
  max ((6/10 : ℚ) * text.length) 1

/-- Rect.__post_init__: if the font_size field is falsy (empty string),
derive the font size from width, height, text length and orientation;
otherwise leave the record unchanged.  Runs on every construction,
including the reconstruction performed by dataclasses.replace. -/
def postInit (r : Rect) : Rect :=
  if r.font_size.truthy then r
  else
    let est := estimatedTextSize r.text
    let wh : ℚ × ℚ :=
      if r.text_orientation == "horizontal" then (r.width, r.height)
      else (r.height, r.width)
    { r with font_size := .derived (min ((9/10 : ℚ) * (wh.1 / est)) (wh.2 * (3/10 : ℚ))) }

/-- Construction of a Rect through the dataclass constructor (all defaults
except width and height), followed by __post_init__. -/
def mkRect (width height : ℚ) : Rect :=
  postInit { width := width, height := height }

/-- Rect.bounding_rect(**kw) with no overrides: dataclasses.replace(self)
with no changed field, which rebuilds the instance through __init__ and so
reruns __post_init__. -/
def Rect.boundingRect (r : Rect) : Rect := postInit r

/-- Rect.translate: dataclasses.replace(self, x=self.x+dx, y=self.y+dy);
the replace reruns __post_init__ on the new instance. -/
def Rect.translate (r : Rect) (dx dy : ℚ) : Rect :=
  postInit { r with x := r.x + dx, y := r.y + dy }

/-- Rect.shapes. -/
def Rect.shapesOf (r : Rect) : List Rect := [r]

/-- The Rects dataclass: an ordered list of Rect. -/
structure Rects where
  rects : List Rect
  deriving DecidableEq

/-- Python min over a nonempty sequence, given as head and tail. -/
def qMin (x : ℚ) (xs : List ℚ) : ℚ := xs.foldl min x

/-- Python max over a nonempty sequence, given as head and tail. -/
def qMax (x : ℚ) (xs : List ℚ) : ℚ := xs.foldl max x

/-- Rects.bounding_rect(**kw) with no overrides: the degenerate Rect(0, 0)
for an empty list, otherwise Rect built from min x, min y, max x+width,
max y+height (its construction reruns __post_init__). -/
def Rects.boundingRect (rs : Rects) : Rect :=
  match rs.rects with
  | [] => mkRect 0 0
  | r :: rest =>
    let minX := qMin r.x (rest.map Rect.x)
    let minY := qMin r.y (rest.map Rect.y)
    let maxX := qMax (r.x + r.width) (rest.map fun t => t.x + t.width)
    let maxY := qMax (r.y + r.height) (rest.map fun t => t.y + t.height)
    postInit { width := maxX - minX, height := maxY - minY, x := minX, y := minY }

/-- Rects.translate: translate every member rectangle. -/
def Rects.translate (rs : Rects) (dx dy : ℚ) : Rects :=
  ⟨rs.rects.map fun r => r.translate dx dy⟩

/-- Rects.shapes. -/
def Rects.shapesOf (rs : Rects) : List Rect := rs.rects

/-- A value acceptable to hstack and vstack: either a single Rect or a
Rects collection (the two shape classes the module defines). -/
inductive Shape where
  | rect (r : Rect)
  | rects (rs : Rects)
  deriving DecidableEq

/-- Dynamic dispatch of bounding_rect on a shape argument. -/
def Shape.boundingRect : Shape → Rect
  | .rect r => r.boundingRect
  | .rects rs => rs.boundingRect

/-- Dynamic dispatch of translate on a shape argument. -/
def Shape.translate : Shape → ℚ → ℚ → Shape
  | .rect r, dx, dy => .rect (r.translate dx dy)
  | .rects rs, dx, dy => .rects (rs.translate dx dy)

/-- Dynamic dispatch of shapes on a shape argument. -/
def Shape.shapesOf : Shape → List Rect
  | .rect r => r.shapesOf
  | .rects rs => rs.shapesOf

/-- The errors the stacking code can raise.  maxEmptySeq is the ValueError
Python's builtin max raises on an empty sequence ("max() arg is an empty
sequence"); emptyInput stands for a descriptive, purpose-written
"empty input" error, which nothing in shapes.py ever raises. -/
inductive StackError where
  | maxEmptySeq
  | emptyInput
  deriving DecidableEq

/-- Python max over a possibly empty sequence of rationals. -/
def pyMax : List ℚ → Except StackError ℚ
  | [] => .error .maxEmptySeq
  | x :: xs => .ok (qMax x xs)

/-- The for-loop of hstack: keep a running offset dx (initially 0),
translate each shape by (dx, 0), append its flattened rectangles, and
advance dx by the translated shape's bounding width plus padding. -/
def hstackGo (padding : ℚ) : List Shape → ℚ → List Rect
  | [], _ => []
  | s :: rest, dx =>
    let s := s.translate dx 0
    s.shapesOf ++ hstackGo padding rest (dx + s.boundingRect.width + padding)

/-- hstack(shapes, padding=0.0, center=False).  With center=True the code
first takes the max of the bounding heights (raising on an empty input) and
vertically centers each shape against it, then runs the placement loop. -/
def hstack (shapes : List Shape) (padding : ℚ) (center : Bool) :
    Except StackError Rects :=
  if center then
    match pyMax (shapes.map fun s => s.boundingRect.height) with
    | .error e => .error e
    | .ok height =>
      let centered := shapes.map fun s =>
        s.translate 0 ((height - s.boundingRect.height) / 2)
      .ok ⟨hstackGo padding centered 0⟩
  else
    .ok ⟨hstackGo padding shapes 0⟩

/-- The for-loop of vstack: running offset dy, vertical placement. -/
def vstackGo (padding : ℚ) : List Shape → ℚ → List Rect
  | [], _ => []
  | s :: rest, dy =>
    let s := s.translate 0 dy
    s.shapesOf ++ vstackGo padding rest (dy + s.boundingRect.height + padding)

/-- vstack(shapes, padding=0.0, center=False), the vertical mirror of
hstack. -/
def vstack (shapes : List Shape) (padding : ℚ) (center : Bool) :
    Except StackError Rects :=
  if center then
    match pyMax (shapes.map fun s => s.boundingRect.width) with
    | .error e => .error e
    | .ok width =>
      let centered := shapes.map fun s =>
        s.translate ((width - s.boundingRect.width) / 2) 0
      .ok ⟨vstackGo padding centered 0⟩
  else
    .ok ⟨vstackGo padding shapes 0⟩

/-- grid(shape, rows, cols, row_padding=0.0, col_padding=0.0):
vstack([hstack([shape] * cols, padding=col_padding)] * rows,
padding=row_padding). -/
def grid (shape : Shape) (rows cols : Nat) (rowPadding colPadding : ℚ) :
    Except StackError Rects := do
  let row ← hstack (List.replicate cols shape) colPadding false
  vstack (List.replicate rows (Shape.rects row)) rowPadding false

/-- A node of the HTMLElement tree of html_builder.py.  An element stores a
tag, an attribute mapping (modelled as an ordered association list whose
values are already string-coerced) and a child list.  A child list entry in
Python is either another HTMLElement, a text value (anything serialized via
str), or the value None, which __getitem__ can append; pynone models that
entry. -/
inductive Node where
  | elem (tag : String) (attributes : List (String × String)) (children : List Node)
  | text (s : String)
  | pynone

/-- Python str.lower restricted to its ASCII action (tag names here are
ASCII): lowercase every character. -/
def strLower (s : String) : String := ⟨s.data.map Char.toLower⟩

/-- The check child is None performed in HTMLElement.__init__. -/
def Node.isNone : Node → Bool
  | .pynone => true
  | _ => false

/-- HTMLElement.__init__(tag, *children, **attributes): the tag is
lowercased and the variadic children are filtered to drop None entries. -/
def mkElement (tag : String) (children : List Node)
    (attributes : List (String × String)) : Node :=
  .elem (strLower tag) attributes (children.filter fun c => !c.isNone)

/-- HTMLElement.__getitem__ with a single (non-list, non-tuple) item:
appends the item to the child list unconditionally and returns self. -/
def getItemSingle (n : Node) (item : Node) : Node :=
  match n with
  | .elem t a cs => .elem t a (cs ++ [item])
  | other => other

/-- HTMLElement.__getitem__ with a list or tuple item: extends the child
list with the items unconditionally and returns self. -/
def getItemSeq (n : Node) (items : List Node) : Node :=
  match n with
  | .elem t a cs => .elem t a (cs ++ items)
  | other => other

/-- The child list of a node (the children attribute of an element). -/
def Node.childList : Node → List Node
  | .elem _ _ cs => cs
  | _ => []

/-- html.escape applied to one character (quote=True, the default used by
the builder): escapes ampersand, angle brackets, double and single quote. -/
def escapeChar (c : Char) : String :=
  if c = '&' then "&amp;"
  else if c = '<' then "&lt;"
  else if c = '>' then "&gt;"
  else if c = '"' then "&quot;"
  else if c = '\'' then "&#x27;"
  else String.singleton c

/-- html.escape on a string (the sequential replacements of html.escape
act independently per character, so a character map is equivalent). -/
def htmlEscape (s : String) : String :=
  String.join (s.data.map escapeChar)

/-- The lambda strip_ in to_html_string: k.rstrip of the underscore
character, dropping every trailing underscore of an attribute key. -/
def stripTrailing (k : String) : String :=
  ⟨(k.data.reverse.dropWhile fun c => c = '_').reverse⟩

/-- The attributes fragment of to_html_string: empty for no attributes,
otherwise a leading space and space-separated key="escaped value" pairs
with trailing underscores stripped from keys. -/
def attrString (attributes : List (String × String)) : String :=
  match attributes with
  | [] => ""
  | _ => " " ++ String.intercalate " "
      (attributes.map fun kv =>
        stripTrailing kv.1 ++ "=\"" ++ htmlEscape kv.2 ++ "\"")

/-- The VOID_ELEMENTS set of to_html_string. -/
def voidElements : List String :=
  ["area", "base", "br", "col", "embed", "hr", "img", "input",
   "link", "meta", "param", "source", "track", "wbr"]

mutual

/-- HTMLElement.to_html_string with pretty=False.  On an element whose tag
is in VOID_ELEMENTS it emits the self-closing attribute-only form; on any
other element it emits open tag, serialized children, close tag.  A child
that is an element recurses; any other child is rendered via str: a text
child yields its own string and the Python value None yields the string
None. -/
def toHtmlString : Node → String
  | .text s => s
  | .pynone => "None"
  | .elem tag attrs children =>
    if tag ∈ voidElements then
      "<" ++ tag ++ attrString attrs ++ " />"
    else
      "<" ++ tag ++ attrString attrs ++ ">" ++ childrenString children
        ++ "</" ++ tag ++ ">"

/-- Serialization of a child list: concatenation in order. -/
def childrenString : List Node → String
  | [] => ""
  | c :: cs => toHtmlString c ++ childrenString cs

end

/-- Boolean test that the second string occurs as a contiguous substring of
the first, used to state claims about serialized output. -/
def prefixAt : List Char → List Char → Bool
  | [], _ => true
  | _ :: _, [] => false
  | n :: ns, h :: hs => n == h && prefixAt ns hs

/-- Helper for strHasSub: does the needle occur at some position of the
haystack list. -/
def subSearch (needle : List Char) : List Char → Bool
  | [] => prefixAt needle []
  | h :: t => prefixAt needle (h :: t) || subSearch needle t

/-- The haystack string contains the needle string as a substring. -/
def strHasSub (hay needle : String) : Bool :=
  subSearch needle.data hay.data

/-! Theorems -/

/-- C6: for every rectangle (every Rect leaves __post_init__ with a truthy
font_size string), bounding_rect() with no overrides returns a value equal
to the original in every field. -/
theorem bounding_rect_no_overrides (r : Rect) (h : r.font_size.truthy = true) :
    r.boundingRect = r := by
  simp [Rect.boundingRect, postInit, h]

/-- Witness for C6 at the concrete rectangle Rect(10, 5). -/
theorem bounding_rect_no_overrides_witness :
    (mkRect 10 5).font_size.truthy = true ∧ (mkRect 10 5).boundingRect = mkRect 10 5 :=
  ⟨by decide, bounding_rect_no_overrides (mkRect 10 5) (by decide)⟩

/-- Helper: on a rectangle with truthy font_size, translate is the plain
field update of x and y. -/
theorem translate_eq_update (r : Rect) (h : r.font_size.truthy = true) (dx dy : ℚ) :
    r.translate dx dy = { r with x := r.x + dx, y := r.y + dy } := by
  simp [Rect.translate, postInit, h]

/-- C7: translate composes additively and leaves every field other than
x and y unchanged, for every rectangle with a truthy font_size (the state
every Rect is in after __post_init__). -/
theorem translate_additive (r : Rect) (h : r.font_size.truthy = true) (a b c d : ℚ) :
    (r.translate a b).translate c d = r.translate (a + c) (b + d)
    ∧ (r.translate a b).x = r.x + a ∧ (r.translate a b).y = r.y + b
    ∧ (r.translate a b).width = r.width ∧ (r.translate a b).height = r.height
    ∧ (r.translate a b).rx = r.rx ∧ (r.translate a b).ry = r.ry
    ∧ (r.translate a b).color = r.color ∧ (r.translate a b).roughness = r.roughness
    ∧ (r.translate a b).stroke_color = r.stroke_color
    ∧ (r.translate a b).stroke_dasharray = r.stroke_dasharray
    ∧ (r.translate a b).stroke_width = r.stroke_width
    ∧ (r.translate a b).text = r.text
    ∧ (r.translate a b).font_size = r.font_size
    ∧ (r.translate a b).text_color = r.text_color
    ∧ (r.translate a b).text_orientation = r.text_orientation := by
  have h1 := translate_eq_update r h a b
  have h2 : (r.translate a b).font_size.truthy = true := by rw [h1]; exact h
  have h3 := translate_eq_update (r.translate a b) h2 c d
  constructor
  · rw [h3, h1, translate_eq_update r h (a + c) (b + d)]
    simp [add_assoc]
  · rw [h1]
    simp

/-- Witness for C7 at Rect(10, 5) with the concrete offsets of the claim. -/
theorem translate_additive_witness :
    (mkRect 10 5).font_size.truthy = true
    ∧ ((mkRect 10 5).translate 1 2).translate 3 4 = (mkRect 10 5).translate (1 + 3) (2 + 4) :=
  ⟨by decide, (translate_additive (mkRect 10 5) (by decide) 1 2 3 4).1⟩

/-- C10: the divisor of the derived-font-size computation is clamped to at
least 1, so it is never zero, including for empty label text (where it is
exactly 1). -/
theorem estimated_text_size_clamped (text : String) :
    1 ≤ estimatedTextSize text ∧ estimatedTextSize text ≠ 0
    ∧ estimatedTextSize "" = 1 := by
  refine ⟨le_max_right _ _, ?_, ?_⟩
  · have h1 : (1 : ℚ) ≤ estimatedTextSize text := le_max_right _ _
    intro h0
    rw [h0] at h1
    exact absurd h1 (by norm_num)
  · simp [estimatedTextSize]

/-- C9: with centering not requested, hstack and vstack on the empty input
return an empty collection (whose flattened shape list is empty) without
raising. -/
theorem empty_stack_no_center (p : ℚ) :
    hstack [] p false = .ok ⟨[]⟩ ∧ vstack [] p false = .ok ⟨[]⟩
    ∧ Rects.shapesOf ⟨[]⟩ = [] :=
  ⟨rfl, rfl, rfl⟩

/-- C2: with centering requested, hstack and vstack on the empty input
raise the generic ValueError of Python max on an empty sequence, not a
purpose-written descriptive "empty input" error. -/
theorem empty_stack_center_generic_error (p : ℚ) :
    hstack [] p true = .error .maxEmptySeq ∧ vstack [] p true = .error .maxEmptySeq
    ∧ StackError.maxEmptySeq ≠ StackError.emptyInput :=
  ⟨rfl, rfl, by decide⟩

/-- C5: grid(Rect(10,10), rows=2, cols=3) yields exactly 6 rectangles at
positions (0,0),(10,0),(20,0),(0,10),(10,10),(20,10). -/
theorem grid_two_by_three :
    (grid (Shape.rect (mkRect 10 10)) 2 3 0 0).map
      (fun rs => (rs.rects.length, rs.rects.map fun r => (r.x, r.y)))
    = .ok (6, [(0, 0), (10, 0), (20, 0), (0, 10), (10, 10), (20, 10)]) := by
  norm_num [grid, hstack, vstack, hstackGo, vstackGo, mkRect, postInit, FontSize.truthy,
    estimatedTextSize, Shape.translate, Rect.translate, Shape.shapesOf, Rect.shapesOf,
    Rects.translate, Rects.shapesOf, Shape.boundingRect, Rect.boundingRect,
    Rects.boundingRect, qMin, qMax, pyMax, List.replicate, Except.map, Bind.bind,
    Except.bind, min_def, max_def]

/-- C8: an element whose lowercased tag is in the void set serializes to
the self-closing attribute-only form, with no closing tag and no rendered
children, whatever children were supplied. -/
theorem void_tag_self_closing (tag : String) (children : List Node)
    (attrs : List (String × String)) (h : strLower tag ∈ voidElements) :
    toHtmlString (mkElement tag children attrs)
    = "<" ++ strLower tag ++ attrString attrs ++ " />" := by
  simp [mkElement, toHtmlString, if_pos h]

/-- Witness for C8: the tag BR with a child supplied serializes with no
closing tag and the child dropped. -/
theorem void_tag_self_closing_witness :
    strLower "BR" ∈ voidElements
    ∧ toHtmlString (mkElement "BR" [Node.text "hi"] [])
      = "<" ++ strLower "BR" ++ attrString [] ++ " />" :=
  ⟨by decide, void_tag_self_closing "BR" [Node.text "hi"] [] (by decide)⟩

/-- C1 counterexample: a child text value of a script open tag is rendered
literally by to_html_string, so the serialized string does contain a
literal script tag coming from child text (no entity escaping of child
text happens). -/
theorem script_child_text_unescaped :
    toHtmlString (mkElement "div" [Node.text "<script>"] []) = "<div><script></div>"
    ∧ strHasSub (toHtmlString (mkElement "div" [Node.text "<script>"] [])) "<script>"
      = true := by
  constructor <;> rfl

/-- C1 amended: a non-element (text) child is serialized verbatim via str,
with no escaping, between the open and close tags; attribute values, by
contrast, are entity-escaped (html.escape turns a script open tag into its
entity form). -/
theorem text_child_rendered_verbatim (tag s : String) (attrs : List (String × String))
    (h : strLower tag ∉ voidElements) :
    toHtmlString (mkElement tag [Node.text s] attrs)
      = "<" ++ strLower tag ++ attrString attrs ++ ">" ++ s ++ "</" ++ strLower tag ++ ">"
    ∧ htmlEscape "<script>" = "&lt;script&gt;" := by
  refine ⟨?_, by decide⟩
  simp [mkElement, toHtmlString, childrenString, Node.isNone, if_neg h,
    String.append_assoc]

/-- Witness for the amended C1 at a concrete div element. -/
theorem text_child_rendered_verbatim_witness :
    strLower "div" ∉ voidElements
    ∧ (toHtmlString (mkElement "div" [Node.text "<script>"] [("id", "x")])
        = "<" ++ strLower "div" ++ attrString [("id", "x")] ++ ">" ++ "<script>"
          ++ "</" ++ strLower "div" ++ ">"
      ∧ htmlEscape "<script>" = "&lt;script&gt;") :=
  ⟨by decide, text_child_rendered_verbatim "div" "<script>" [("id", "x")] (by decide)⟩

/-- C3 counterexample: a None item passed to the bracket operator is
appended to the child list, so a None entry does appear among children
added after construction. -/
theorem getitem_keeps_none :
    (getItemSingle (mkElement "div" [] []) Node.pynone).childList = [Node.pynone]
    ∧ Node.pynone ∈ (getItemSingle (mkElement "div" [] []) Node.pynone).childList := by
  refine ⟨rfl, ?_⟩
  simp [getItemSingle, mkElement, Node.childList]

/-- C3 amended: None entries among the variadic construction children are
dropped, but children appended later through the bracket operator are added
as given, without any None filtering. -/
theorem children_none_filtering :
    (∀ (tag : String) (cs : List Node) (attrs : List (String × String)),
      ((mkElement tag cs attrs).childList.all fun c => !c.isNone) = true)
    ∧ (∀ (t : String) (a : List (String × String)) (cs : List Node) (item : Node),
      (getItemSingle (.elem t a cs) item).childList = cs ++ [item])
    ∧ (∀ (t : String) (a : List (String × String)) (cs items : List Node),
      (getItemSeq (.elem t a cs) items).childList = cs ++ items) := by
  refine ⟨fun tag cs attrs => ?_, fun t a cs item => rfl, fun t a cs items => rfl⟩
  simp only [mkElement, Node.childList, List.all_eq_true]
  intro c hc
  exact (List.mem_filter.mp hc).2

/-- Projection lemma: __post_init__ never changes the width field. -/
theorem postInit_width (r : Rect) : (postInit r).width = r.width := by
  unfold postInit; split <;> rfl

/-- Projection lemma: __post_init__ never changes the height field. -/
theorem postInit_height (r : Rect) : (postInit r).height = r.height := by
  unfold postInit; split <;> rfl

/-- Projection lemma: __post_init__ never changes the x field. -/
theorem postInit_x (r : Rect) : (postInit r).x = r.x := by
  unfold postInit; split <;> rfl

/-- Projection lemma: __post_init__ never changes the y field. -/
theorem postInit_y (r : Rect) : (postInit r).y = r.y := by
  unfold postInit; split <;> rfl

/-- Translate moves the x field by dx. -/
theorem translate_x (r : Rect) (dx dy : ℚ) : (r.translate dx dy).x = r.x + dx := by
  simp [Rect.translate, postInit_x]

/-- Translate moves the y field by dy. -/
theorem translate_y (r : Rect) (dx dy : ℚ) : (r.translate dx dy).y = r.y + dy := by
  simp [Rect.translate, postInit_y]

/-- Translate keeps the width field. -/
theorem translate_width (r : Rect) (dx dy : ℚ) : (r.translate dx dy).width = r.width := by
  simp [Rect.translate, postInit_width]

/-- Translate keeps the height field. -/
theorem translate_height (r : Rect) (dx dy : ℚ) : (r.translate dx dy).height = r.height := by
  simp [Rect.translate, postInit_height]

/-- Folded min distributes over a constant shift of every input. -/
theorem qMin_shift (d : ℚ) (xs : List ℚ) :
    ∀ x, qMin (x + d) (xs.map fun t => t + d) = qMin x xs + d := by
  induction xs with
  | nil => intro x; rfl
  | cons a t ih =>
    intro x
    show qMin (min (x + d) (a + d)) (t.map fun t => t + d) = qMin (min x a) t + d
    rw [min_add_add_right]
    exact ih (min x a)

/-- Folded max distributes over a constant shift of every input. -/
theorem qMax_shift (d : ℚ) (xs : List ℚ) :
    ∀ x, qMax (x + d) (xs.map fun t => t + d) = qMax x xs + d := by
  induction xs with
  | nil => intro x; rfl
  | cons a t ih =>
    intro x
    show qMax (max (x + d) (a + d)) (t.map fun t => t + d) = qMax (max x a) t + d
    rw [max_add_add_right]
    exact ih (max x a)

/-- Translating a collection horizontally leaves its bounding width
unchanged: the min x and the max x+width both shift by dx. -/
theorem rects_translate_bounding_width (rs : Rects) (dx dy : ℚ) :
    (rs.translate dx dy).boundingRect.width = rs.boundingRect.width := by
  rcases rs with ⟨rects⟩
  cases rects with
  | nil => rfl
  | cons r rest =>
    show (postInit _).width = (postInit _).width
    rw [postInit_width, postInit_width]
    have hxw : (rest.map fun t => t.translate dx dy).map (fun t => t.x + t.width)
        = (rest.map fun t => t.x + t.width).map fun t => t + dx := by
      rw [List.map_map, List.map_map]
      refine List.map_congr_left fun a _ => ?_
      simp [Function.comp, translate_x, translate_width, add_right_comm]
    have hx : (rest.map fun t => t.translate dx dy).map Rect.x
        = (rest.map Rect.x).map fun t => t + dx := by
      rw [List.map_map, List.map_map]
      refine List.map_congr_left fun a _ => ?_
      simp [Function.comp, translate_x]
    have hmax :
        qMax ((r.translate dx dy).x + (r.translate dx dy).width)
          ((rest.map fun t => t.translate dx dy).map fun t => t.x + t.width)
        = qMax (r.x + r.width) (rest.map fun t => t.x + t.width) + dx := by
      rw [hxw, translate_x, translate_width, add_right_comm]
      exact qMax_shift dx (rest.map fun t => t.x + t.width) (r.x + r.width)
    have hmin :
        qMin (r.translate dx dy).x
          ((rest.map fun t => t.translate dx dy).map Rect.x)
        = qMin r.x (rest.map Rect.x) + dx := by
      rw [hx, translate_x]
      exact qMin_shift dx (rest.map Rect.x) r.x
    simp only [Rects.translate, List.map_cons] at *
    rw [hmax, hmin]
    ring

/-- Translating any shape horizontally leaves its bounding width
unchanged. -/
theorem shape_translate_bounding_width (s : Shape) (dx dy : ℚ) :
    (s.translate dx dy).boundingRect.width = s.boundingRect.width := by
  cases s with
  | rect r =>
    show (postInit (r.translate dx dy)).width = (postInit r).width
    rw [postInit_width, postInit_width, translate_width]
  | rects rs => exact rects_translate_bounding_width rs dx dy

/-- The running x-offsets of hstack as the claim describes them: the first
shape at offset 0 (the dx argument at the top call), each later offset the
previous one plus that shape's bounding width plus the padding. -/
def runningOffsets (p : ℚ) : List Shape → ℚ → List ℚ
  | [], _ => []
  | s :: rest, dx => dx :: runningOffsets p rest (dx + s.boundingRect.width + p)

/-- The hstack loop equals the zip of the input shapes with their running
offsets, each shape translated horizontally by its own offset. -/
theorem hstackGo_zip (p : ℚ) (shapes : List Shape) : ∀ dx,
    hstackGo p shapes dx
    = (List.zipWith (fun s d => (s.translate d 0).shapesOf) shapes
        (runningOffsets p shapes dx)).flatten := by
  induction shapes with
  | nil => intro dx; rfl
  | cons s rest ih =>
    intro dx
    show (s.translate dx 0).shapesOf
        ++ hstackGo p rest (dx + (s.translate dx 0).boundingRect.width + p)
      = (s.translate dx 0).shapesOf
        ++ (List.zipWith (fun s d => (s.translate d 0).shapesOf) rest
            (runningOffsets p rest (dx + s.boundingRect.width + p))).flatten
    rw [shape_translate_bounding_width, ih]

/-- C4 amended: without centering, hstack translates each shape
horizontally by the running x-offset (initially 0, advancing by that
shape's bounding width plus padding), so a shape's left edge lands at its
own left edge plus the offset; the concrete example of the claim holds:
hstack of Rect(10,5) and Rect(20,5) with padding 0 has bounding width 30
and height 5. -/
theorem hstack_layout (shapes : List Shape) (p : ℚ) :
    hstack shapes p false
      = .ok ⟨(List.zipWith (fun s d => (s.translate d 0).shapesOf) shapes
          (runningOffsets p shapes 0)).flatten⟩
    ∧ (hstack [Shape.rect (mkRect 10 5), Shape.rect (mkRect 20 5)] 0 false).map
        (fun rs => (rs.boundingRect.width, rs.boundingRect.height)) = .ok (30, 5) := by
  constructor
  · have h0 : hstack shapes p false = .ok ⟨hstackGo p shapes 0⟩ := rfl
    rw [h0, hstackGo_zip]
  · norm_num [hstack, hstackGo, mkRect, postInit, FontSize.truthy, estimatedTextSize,
      Shape.translate, Rect.translate, Shape.shapesOf, Rect.shapesOf, Shape.boundingRect,
      Rect.boundingRect, Rects.boundingRect, qMin, qMax, Except.map, min_def, max_def]

/-- C4 counterexample: a rectangle whose own x is 5, stacked alone with
padding 0, keeps its left edge at 5, not at the running offset 0: the code
translates by the offset instead of placing the left edge at it. -/
theorem hstack_left_edge_counterexample :
    ((hstack [Shape.rect (postInit { width := 10, height := 5, x := 5 })] 0 false).map
      fun rs => rs.rects.map Rect.x) = .ok [5]
    ∧ (5 : ℚ) ≠ 0 := by
  constructor
  · norm_num [hstack, hstackGo, postInit, FontSize.truthy, estimatedTextSize,
      Shape.translate, Rect.translate, Shape.shapesOf, Rect.shapesOf, Shape.boundingRect,
      Rect.boundingRect, Except.map, min_def, max_def]
  · norm_num

end Viz
